import Mathlib

/-!
Verification development for the banana-connect marketplace client.

The repository is a TypeScript/React front end over a hosted relational
store (Supabase).  This file gives a shallow embedding of the data rows
(as they appear in the generated schema file) and of the query/mutation
logic of the examined pages:

* `Market.fetchProducts` and `Market.filteredProducts` (catalog browse),
* `ProductDetail.loadProduct` (detail lookup),
* `AddProduct.handleSubmit` (product creation with validation),
* `ManageProducts.deleteProduct` / `ManageProducts.toggleActive`
  (soft delete / activation toggle),
* `UpdateProfile.saveFarmProfile` (farm-profile update).

Modeling conventions:

* The store is a pair of row lists (`DB`).  A Supabase `select … eq`
  query is a `List.filter` / `List.find?`; `update … eq` maps over the
  rows; `order(col, ascending)` is a stable sort (`List.insertionSort`).
* Dates are the ISO `String`s the store returns; their chronological
  order on valid ISO dates is the byte-wise lexicographic order
  `dateLe` defined below.
* JS string operations used by the code (`trim`, `toLowerCase`,
  `includes`) are modeled character-wise (`jsTrim`, `jsToLower`,
  `strIncludes`).
* JS numbers standing for money are modeled as `Rat`, quantities as
  `Int`; a failed `parseFloat`/`parseInt` (`NaN`) is `none`.
* Nullable columns are `Option` types, matching the generated schema.
-/

/-- Lowercases one ASCII character, as `String.prototype.toLowerCase`
does on the ASCII range. -/
def lowerChar (c : Char) : Char :=
  if 'A' ≤ c && c ≤ 'Z' then Char.ofNat (c.toNat + 32) else c

/-- Model of `String.prototype.toLowerCase` (ASCII range). -/
def jsToLower (s : String) : String := ⟨s.data.map lowerChar⟩

/-- Whitespace characters stripped by `String.prototype.trim`. -/
def isWS (c : Char) : Bool := c == ' ' || c == '\t' || c == '\n' || c == '\r'

/-- Model of `String.prototype.trim`. -/
def jsTrim (s : String) : String :=
  ⟨((s.data.dropWhile isWS).reverse.dropWhile isWS).reverse⟩

/-- Byte-wise lexicographic comparison of character lists; on ISO date
strings this coincides with chronological order, which is what the
store's `order("harvest_date")` sorts by. -/
def charsLe : List Char → List Char → Bool
  | [], _ => true
  | _ :: _, [] => false
  | a :: as, b :: bs =>
    if a.toNat = b.toNat then charsLe as bs
    else decide (a.toNat < b.toNat)

/-- Date comparison used to model `order("harvest_date", ascending)`. -/
def dateLe (a b : String) : Bool := charsLe a.data b.data

/-- Strict date comparison (for "expiry earlier than harvest"). -/
def dateLt (a b : String) : Bool := !(dateLe b a)

theorem charsLe_total : ∀ xs ys : List Char,
    charsLe xs ys = true ∨ charsLe ys xs = true
  | [], _ => Or.inl rfl
  | _ :: _, [] => Or.inr rfl
  | x :: xs, y :: ys => by
    by_cases h : x.toNat = y.toNat
    · rcases charsLe_total xs ys with h1 | h1
      · exact Or.inl (by simp [charsLe, h, h1])
      · exact Or.inr (by simp [charsLe, h.symm, h1])
    · rcases Nat.lt_or_ge x.toNat y.toNat with hlt | hge
      · exact Or.inl (by simp [charsLe, h, hlt])
      · have hyx : y.toNat < x.toNat := by omega
        exact Or.inr (by simp [charsLe, show y.toNat ≠ x.toNat by omega, hyx])

theorem charsLe_trans : ∀ xs ys zs : List Char,
    charsLe xs ys = true → charsLe ys zs = true → charsLe xs zs = true
  | [], _, _, _, _ => rfl
  | x :: xs, [], _, h1, _ => by simp [charsLe] at h1
  | x :: xs, y :: ys, [], _, h2 => by simp [charsLe] at h2
  | x :: xs, y :: ys, z :: zs, h1, h2 => by
    by_cases hxy : x.toNat = y.toNat <;> by_cases hyz : y.toNat = z.toNat
    · have hxz : x.toNat = z.toNat := hxy.trans hyz
      simp only [charsLe, if_pos hxy] at h1
      simp only [charsLe, if_pos hyz] at h2
      simp only [charsLe, if_pos hxz]
      exact charsLe_trans xs ys zs h1 h2
    · simp only [charsLe, if_neg hyz, decide_eq_true_eq] at h2
      have hxz : x.toNat < z.toNat := by omega
      simp [charsLe, show x.toNat ≠ z.toNat by omega, hxz]
    · simp only [charsLe, if_neg hxy, decide_eq_true_eq] at h1
      have hxz : x.toNat < z.toNat := by omega
      simp [charsLe, show x.toNat ≠ z.toNat by omega, hxz]
    · simp only [charsLe, if_neg hxy, decide_eq_true_eq] at h1
      simp only [charsLe, if_neg hyz, decide_eq_true_eq] at h2
      have hxz : x.toNat < z.toNat := by omega
      simp [charsLe, show x.toNat ≠ z.toNat by omega, hxz]

theorem dateLe_total (a b : String) : dateLe a b = true ∨ dateLe b a = true :=
  charsLe_total a.data b.data

theorem dateLe_trans {a b c : String} (h1 : dateLe a b = true)
    (h2 : dateLe b c = true) : dateLe a c = true :=
  charsLe_trans a.data b.data c.data h1 h2

/-- Model of `needle` matching at the start of `hay`
(first argument is the needle). -/
def leadsChars : List Char → List Char → Bool
  | [], _ => true
  | _ :: _, [] => false
  | n :: ns, h :: hs => n == h && leadsChars ns hs

/-- Model of `Array.prototype`-style substring scan: does `needle`
occur contiguously in the second list? -/
def includesChars (needle : List Char) : List Char → Bool
  | [] => needle.isEmpty
  | h :: hs => leadsChars needle (h :: hs) || includesChars needle hs

/-- Model of `String.prototype.includes`: `strIncludes s sub` is
`s.includes(sub)`. -/
def strIncludes (s sub : String) : Bool := includesChars sub.data s.data

theorem includesChars_nil_needle : ∀ hay : List Char,
    includesChars [] hay = true
  | [] => rfl
  | _ :: _ => rfl

/-- The empty search string matches every string, as in JS. -/
theorem strIncludes_empty (s : String) : strIncludes s "" = true :=
  includesChars_nil_needle s.data

/-! ## Data model (from the generated schema file) -/

/-- The `product_type` enum of the schema. -/
inductive ProductType
  | shoot
  | fruit
deriving DecidableEq

/-- String key of a `ProductType`, as stored and as compared by the
browse filter. -/
def ProductType.toKey : ProductType → String
  | .shoot => "shoot"
  | .fruit => "fruit"

/-- The `order_status` enum of the schema. -/
inductive OrderStatus
  | pending
  | confirmed
  | shipped
  | delivered
  | cancelled
  | reviewed
deriving DecidableEq

/-- Every constructor of `OrderStatus`, in schema order. -/
def OrderStatus.all : List OrderStatus :=
  [.pending, .confirmed, .shipped, .delivered, .cancelled, .reviewed]

/-- String key of an `OrderStatus`. -/
def OrderStatus.toKey : OrderStatus → String
  | .pending => "pending"
  | .confirmed => "confirmed"
  | .shipped => "shipped"
  | .delivered => "delivered"
  | .cancelled => "cancelled"
  | .reviewed => "reviewed"

/-- The `Constants.public.Enums.order_status` value array of the schema
file, verbatim. -/
def orderStatusValues : List String :=
  ["pending", "confirmed", "shipped", "delivered", "cancelled", "reviewed"]

/-- A row of the `farm_profiles` table (generated `Row` type). -/
structure FarmProfileRow where
  created_at : Option String
  farm_description : Option String
  farm_image_url : Option String
  farm_location : String
  farm_name : String
  id : String
  rating : Option Rat
  total_reviews : Option Int
  total_sales : Option Rat
  updated_at : Option String
  user_id : String
  verified : Option Bool
deriving DecidableEq

/-- A row of the `products` table (generated `Row` type). -/
structure ProductRow where
  available_quantity : Int
  created_at : Option String
  cultivar_id : Option String
  description : Option String
  expiry_date : Option String
  farm_id : String
  harvest_date : String
  id : String
  image_url : Option String
  is_active : Option Bool
  name : String
  price_per_unit : Rat
  product_type : ProductType
  unit : String
  updated_at : Option String
deriving DecidableEq

/-- The slice of the backing store the examined pages touch. -/
structure DB where
  products : List ProductRow
  farm_profiles : List FarmProfileRow
deriving DecidableEq

/-! ## Market page (src/unnamed/part_000 of the pack, `Market`) -/

/-- The farm fields the market page attaches to each product
(`farm_profiles` member of its local `Product` interface). -/
structure FarmInfo where
  farm_name : String
  farm_location : String
  rating : Option Rat
deriving DecidableEq

/-- The placeholder used when `farmMap.get(p.farm_id)` is undefined. -/
def unknownFarm : FarmInfo :=
  { farm_name := "Unknown Farm", farm_location := "Unknown", rating := some 0 }

/-- A product as the market page holds it: the row plus farm info. -/
structure MarketProduct where
  product : ProductRow
  farm_profiles : FarmInfo
deriving DecidableEq

/-- Sorting relation of the `order("harvest_date", ascending)` query. -/
def marketRel (a b : ProductRow) : Prop :=
  dateLe a.harvest_date b.harvest_date = true

instance : DecidableRel marketRel := fun a b =>
  inferInstanceAs (Decidable (dateLe a.harvest_date b.harvest_date = true))

instance : IsTotal ProductRow marketRel :=
  ⟨fun a b => dateLe_total a.harvest_date b.harvest_date⟩

instance : IsTrans ProductRow marketRel :=
  ⟨fun _ _ _ h1 h2 => dateLe_trans h1 h2⟩

/-- The `productsData` query of `fetchProducts`: active products,
ordered by harvest date ascending (stable sort). -/
def activeSorted (ps : List ProductRow) : List ProductRow :=
  List.insertionSort marketRel (ps.filter (fun p => p.is_active == some true))

/-- The farm-map merge of `fetchProducts`: `farmMap.get(p.farm_id)`
with the JS `Map` keyed on `user_id` (a later duplicate key wins),
falling back to the placeholder. -/
def attachFarm (farmsData : List FarmProfileRow) (p : ProductRow) :
    MarketProduct :=
  match farmsData.reverse.find? (fun f => f.user_id == p.farm_id) with
  | some f =>
    { product := p
      farm_profiles :=
        { farm_name := f.farm_name, farm_location := f.farm_location
          rating := f.rating } }
  | none => { product := p, farm_profiles := unknownFarm }

/-- `Market.fetchProducts`: active products sorted by harvest date,
farm profiles fetched by `user_id ∈ farmIds` and merged in memory. -/
def fetchProducts (db : DB) : List MarketProduct :=
  let productsData := activeSorted db.products
  let farmIds := (productsData.map (fun p => p.farm_id)).dedup
  let farmsData := db.farm_profiles.filter (fun f => farmIds.contains f.user_id)
  productsData.map (attachFarm farmsData)

/-- `Market.filteredProducts`: the client-side browse filter over the
loaded products. -/
def filteredProducts (products : List MarketProduct)
    (search typeFilter : String) : List MarketProduct :=
  products.filter (fun p =>
    (strIncludes (jsToLower p.product.name) (jsToLower search) ||
      strIncludes (jsToLower p.farm_profiles.farm_name) (jsToLower search)) &&
    (typeFilter == "all" || p.product.product_type.toKey == typeFilter))

/-! ## ProductDetail page (src/src/pages/ProductDetail.tsx) -/

/-- The farm columns `loadProduct` selects
(`id, farm_name, farm_location, rating, verified`). -/
structure DetailFarm where
  id : String
  farm_name : String
  farm_location : String
  rating : Option Rat
  verified : Option Bool
deriving DecidableEq

/-- Projection of a farm row onto the selected columns. -/
def DetailFarm.ofRow (f : FarmProfileRow) : DetailFarm :=
  { id := f.id, farm_name := f.farm_name, farm_location := f.farm_location
    rating := f.rating, verified := f.verified }

/-- Outcome of `ProductDetail.loadProduct`: either the "Product not
found" toast with no product loaded, or the product with its
(possibly missing) farm info. -/
inductive LoadResult
  | notFound (msg : String)
  | found (p : ProductRow) (farm : Option DetailFarm)
deriving DecidableEq

/-- `ProductDetail.loadProduct`: fetch the product by `id` with
`is_active = true` (`maybeSingle`), then its farm profile by
`farm_profiles.id = farm_id`. -/
def loadProduct (db : DB) (pid : String) : LoadResult :=
  match db.products.find? (fun p => p.id == pid && p.is_active == some true) with
  | none => .notFound "Product not found"
  | some p =>
    .found p ((db.farm_profiles.find? (fun f => f.id == p.farm_id)).map
      DetailFarm.ofRow)

/-! ## AddProduct page (src/src/pages/farm/AddProduct.tsx) -/

/-- The `formData` state of `AddProduct`.  The numeric fields carry the
result of `parseFloat` / `parseInt` (`none` models `NaN`); the date and
text fields are the raw form strings (`""` when left empty). -/
structure AddProductForm where
  name : String
  description : String
  product_type : ProductType
  price_per_unit : Option Rat
  available_quantity : Option Int
  unit : String
  harvest_date : String
  expiry_date : String
  image_url : String
deriving DecidableEq

/-- The row `handleSubmit` inserts into `products`. -/
structure ProductInsert where
  farm_id : String
  name : String
  description : Option String
  product_type : ProductType
  price_per_unit : Rat
  available_quantity : Int
  unit : String
  harvest_date : String
  expiry_date : Option String
  image_url : Option String
  is_active : Bool
deriving DecidableEq

/-- Outcome of `AddProduct.handleSubmit`: a `toast.error` with no write,
or the insert of one row. -/
inductive SubmitResult
  | error (msg : String)
  | insert (row : ProductInsert)
deriving DecidableEq

/-- The JS `s || null` idiom on strings: `""` becomes `null`. -/
def strOrNone (s : String) : Option String :=
  if s = "" then none else some s

/-- `AddProduct.handleSubmit`: the validation chain followed by the
insert, in source order. -/
def handleSubmit (farmId : Option String) (f : AddProductForm) :
    SubmitResult :=
  match farmId with
  | none => .error "No farm profile found"
  | some fid =>
    if jsTrim f.name = "" then .error "Product name is required"
    else
      match f.price_per_unit with
      | none => .error "Price must be greater than 0"
      | some price =>
        if price ≤ 0 then .error "Price must be greater than 0"
        else
          match f.available_quantity with
          | none => .error "Quantity must be greater than 0"
          | some quantity =>
            if quantity ≤ 0 then .error "Quantity must be greater than 0"
            else if f.harvest_date = "" then .error "Harvest date is required"
            else .insert
              { farm_id := fid
                name := jsTrim f.name
                description := strOrNone (jsTrim f.description)
                product_type := f.product_type
                price_per_unit := price
                available_quantity := quantity
                unit := f.unit
                harvest_date := f.harvest_date
                expiry_date := strOrNone f.expiry_date
                image_url := strOrNone (jsTrim f.image_url)
                is_active := true }

/-- The price check of `handleSubmit` (`!isNaN(price) && price > 0`). -/
def priceOk : Option Rat → Bool
  | none => false
  | some p => decide (0 < p)

/-- The quantity check of `handleSubmit`
(`!isNaN(quantity) && quantity > 0`). -/
def qtyOk : Option Int → Bool
  | none => false
  | some q => decide (0 < q)

/-- All four validations of `handleSubmit` at once: non-blank name,
positive parsed price, positive parsed quantity, harvest date given. -/
def validAdd (f : AddProductForm) : Bool :=
  (jsTrim f.name != "") && priceOk f.price_per_unit &&
    qtyOk f.available_quantity && (f.harvest_date != "")

/-! ## ManageProducts page (src/src/pages/farm/ManageProducts.tsx) -/

/-- `ManageProducts.toggleActive`: `update({ is_active: !currentState })`
on the row with the given id (`!null` is `true` in JS). -/
def toggleActive (ps : List ProductRow) (productId : String)
    (currentState : Option Bool) : List ProductRow :=
  ps.map (fun p =>
    if p.id = productId then { p with is_active := some (!(currentState == some true)) }
    else p)

/-- `ManageProducts.deleteProduct`: soft delete by
`update({ is_active: false })` on the row with the given id. -/
def deleteProduct (ps : List ProductRow) (productId : String) :
    List ProductRow :=
  ps.map (fun p =>
    if p.id = productId then { p with is_active := some false } else p)

/-! ## UpdateProfile page (src/unnamed/part_000, `UpdateProfile`) -/

/-- The `farmForm` state of `UpdateProfile`. -/
structure FarmForm where
  farm_name : String
  farm_location : String
  farm_description : String
deriving DecidableEq

/-- Outcome of `UpdateProfile.saveFarmProfile`: a `toast.error` with no
write, or the updated `farm_profiles` table. -/
inductive SaveFarmResult
  | error (msg : String)
  | saved (farm_profiles : List FarmProfileRow)
deriving DecidableEq

/-- `UpdateProfile.saveFarmProfile`: blank-name/location rejection, then
`update({farm_name, farm_location, farm_description})` on the row whose
`id` is the loaded profile's id. -/
def saveFarmProfile (farms : List FarmProfileRow) (farmProfileId : String)
    (f : FarmForm) : SaveFarmResult :=
  if jsTrim f.farm_name = "" then .error "Farm name is required"
  else if jsTrim f.farm_location = "" then .error "Farm location is required"
  else .saved (farms.map (fun fp =>
    if fp.id = farmProfileId then
      { fp with
        farm_name := jsTrim f.farm_name
        farm_location := jsTrim f.farm_location
        farm_description := strOrNone (jsTrim f.farm_description) }
    else fp))

/-! ## Helper lemmas -/

theorem attachFarm_product (fd : List FarmProfileRow) (p : ProductRow) :
    (attachFarm fd p).product = p := by
  unfold attachFarm
  split <;> rfl

theorem attachFarm_eq_unknown {fd : List FarmProfileRow} {p : ProductRow}
    (h : ∀ f ∈ fd, f.user_id ≠ p.farm_id) :
    attachFarm fd p = { product := p, farm_profiles := unknownFarm } := by
  unfold attachFarm
  have hn : fd.reverse.find? (fun f => f.user_id == p.farm_id) = none := by
    rw [List.find?_eq_none]
    intro f hf
    simp [h f (List.mem_reverse.mp hf)]
  rw [hn]

theorem mem_activeSorted {p : ProductRow} {ps : List ProductRow} :
    p ∈ activeSorted ps ↔ p ∈ ps ∧ p.is_active = some true := by
  unfold activeSorted
  rw [(List.perm_insertionSort marketRel _).mem_iff, List.mem_filter]
  simp

theorem activeSorted_sorted (ps : List ProductRow) :
    List.Sorted marketRel (activeSorted ps) :=
  List.sorted_insertionSort marketRel _

theorem map_product_attach (fd : List FarmProfileRow) :
    ∀ l : List ProductRow,
      (l.map (attachFarm fd)).map (fun q => q.product) = l
  | [] => rfl
  | p :: t => by
    simp only [List.map_cons, attachFarm_product, List.cons.injEq]
    exact ⟨trivial, map_product_attach fd t⟩

theorem fetchProducts_projection (db : DB) :
    (fetchProducts db).map (fun q => q.product) = activeSorted db.products := by
  simp only [fetchProducts]
  exact map_product_attach _ _

/-! ## Concrete store used by several checks -/

/-- A farm profile whose `id` differs from its `user_id`, as the schema
allows (`id` is its own generated key). -/
def greenFarm : FarmProfileRow :=
  { created_at := none, farm_description := none, farm_image_url := none
    farm_location := "Chiang Mai", farm_name := "Green Valley Farm"
    id := "farm-1", rating := some 4, total_reviews := some 12
    total_sales := some 5000, updated_at := none, user_id := "user-1"
    verified := some true }

/-- An active product whose `farm_id` is `greenFarm.id`, exactly as
`AddProduct.handleSubmit` creates products (`farm_id: farm.id`). -/
def bananaProduct : ProductRow :=
  { available_quantity := 5, created_at := none, cultivar_id := none
    description := none, expiry_date := none, farm_id := "farm-1"
    harvest_date := "2025-01-10", id := "p-1", image_url := none
    is_active := some true, name := "Gros Michel", price_per_unit := 50
    product_type := .fruit, unit := "kg", updated_at := none }

/-- A store with the one farm and its one product. -/
def oneFarmDB : DB :=
  { products := [bananaProduct], farm_profiles := [greenFarm] }

/-- C8: the order-status enum consumed by the program has six values
(`pending, confirmed, shipped, delivered, cancelled, reviewed`), not
five as claimed. -/
theorem orderStatus_has_five_values_cex : ¬ orderStatusValues.length = 5 := by
  decide

/-- C8 (amended): the order-status enum is a six-value enum — the
schema's `order_status` constant array lists six distinct values, and
they are exactly the keys of the six `OrderStatus` constructors. -/
theorem orderStatus_has_six_values :
    orderStatusValues.length = 6 ∧ orderStatusValues.Nodup ∧
    OrderStatus.all.map OrderStatus.toKey = orderStatusValues ∧
    OrderStatus.all.Nodup ∧ ∀ s : OrderStatus, s ∈ OrderStatus.all := by
  refine ⟨rfl, by decide, rfl, by decide, fun s => by cases s <;> decide⟩

/-- C1: in the store `oneFarmDB` the product's `farm_id` is exactly the
id of `greenFarm`, yet `Market.fetchProducts` attaches the
"Unknown Farm" placeholder to it, because its merge keys the farm map
on `user_id` instead of `id`; `ProductDetail.loadProduct`, which joins
on `farm_profiles.id`, finds the correct farm for the same store. -/
theorem fetchProducts_joins_on_user_id_bug :
    bananaProduct.farm_id = greenFarm.id ∧
    greenFarm.farm_name = "Green Valley Farm" ∧
    fetchProducts oneFarmDB =
      [{ product := bananaProduct, farm_profiles := unknownFarm }] ∧
    loadProduct oneFarmDB "p-1" =
      .found bananaProduct (some (DetailFarm.ofRow greenFarm)) := by
  exact ⟨rfl, rfl, by decide, by decide⟩

/-- Forgets the `is_active` field, for frame statements. -/
def eraseActive (p : ProductRow) : ProductRow := { p with is_active := none }

/-- C6: `ManageProducts.deleteProduct` never removes a product record:
the list keeps its length, every field other than `is_active` of every
row is unchanged, and `is_active` becomes `false` exactly on the row
with the given id; `toggleActive`, the only other product mutation on
the page, likewise keeps every record. -/
theorem deleteProduct_is_soft_delete (ps : List ProductRow)
    (productId : String) (c : Option Bool) :
    (deleteProduct ps productId).length = ps.length ∧
    (deleteProduct ps productId).map eraseActive = ps.map eraseActive ∧
    (deleteProduct ps productId).map (fun p => p.is_active) =
      ps.map (fun p => if p.id = productId then some false else p.is_active) ∧
    (toggleActive ps productId c).length = ps.length ∧
    (toggleActive ps productId c).map eraseActive = ps.map eraseActive := by
  refine ⟨?_, ?_, ?_, ?_, ?_⟩
  · simp [deleteProduct]
  · simp only [deleteProduct, List.map_map]
    apply List.map_congr_left
    intro p _
    by_cases h : p.id = productId <;> simp [eraseActive, h]
  · simp only [deleteProduct, List.map_map]
    apply List.map_congr_left
    intro p _
    by_cases h : p.id = productId <;> simp [h]
  · simp [toggleActive]
  · simp only [toggleActive, List.map_map]
    apply List.map_congr_left
    intro p _
    by_cases h : p.id = productId <;> simp [eraseActive, h]

/-- C2: every product returned by `Market.fetchProducts` has
`is_active = true`; a product whose `is_active` is `false` never
appears in the result for any attached farm info; and the result is
ordered by harvest date ascending. -/
theorem listActive_active_only_and_sorted (db : DB) :
    (∀ q ∈ fetchProducts db, q.product.is_active = some true) ∧
    (∀ (p : ProductRow) (info : FarmInfo), p.is_active = some false →
      ({ product := p, farm_profiles := info } : MarketProduct) ∉
        fetchProducts db) ∧
    List.Pairwise (fun a b : MarketProduct =>
      dateLe a.product.harvest_date b.product.harvest_date = true)
      (fetchProducts db) := by
  have h1 : ∀ q ∈ fetchProducts db, q.product.is_active = some true := by
    intro q hq
    simp only [fetchProducts] at hq
    rw [List.mem_map] at hq
    obtain ⟨p, hp, rfl⟩ := hq
    rw [attachFarm_product]
    exact (mem_activeSorted.mp hp).2
  refine ⟨h1, ?_, ?_⟩
  · intro p info hfalse hmem
    have := h1 _ hmem
    simp only at this
    rw [hfalse] at this
    cases this
  · have hs := activeSorted_sorted db.products
    simp only [fetchProducts]
    exact List.Pairwise.map _
      (fun a b hab => by
        rw [attachFarm_product, attachFarm_product]; exact hab) hs

/-- C2 witness: the one listed product of the concrete store is active. -/
theorem listActive_active_only_and_sorted_witness :
    ({ product := bananaProduct, farm_profiles := unknownFarm } :
      MarketProduct).product.is_active = some true :=
  (listActive_active_only_and_sorted oneFarmDB).1 _ (by decide)

/-- C10: `Market.fetchProducts` drops no active product: the returned
sequence projects exactly onto the sorted active products, and a
product whose `farm_id` matches no farm profile (under the map's
`user_id` key) is returned with the placeholder farm info
`farm_name = "Unknown Farm"`, `farm_location = "Unknown"`,
`rating = 0`. -/
theorem fetchProducts_unknown_farm_placeholder (db : DB) :
    ((fetchProducts db).map (fun q => q.product) =
      activeSorted db.products) ∧
    (∀ p ∈ activeSorted db.products,
      (∀ fp ∈ db.farm_profiles, fp.user_id ≠ p.farm_id) →
      ({ product := p, farm_profiles := unknownFarm } : MarketProduct) ∈
        fetchProducts db) := by
  refine ⟨fetchProducts_projection db, ?_⟩
  intro p hp hnone
  simp only [fetchProducts]
  rw [List.mem_map]
  refine ⟨p, hp, ?_⟩
  exact attachFarm_eq_unknown
    (fun f hf => hnone f (List.mem_of_mem_filter hf))

/-- C10 witness: in the concrete store no farm's `user_id` equals the
product's `farm_id`, and the product is returned with the placeholder. -/
theorem fetchProducts_unknown_farm_placeholder_witness :
    ({ product := bananaProduct, farm_profiles := unknownFarm } :
      MarketProduct) ∈ fetchProducts oneFarmDB :=
  (fetchProducts_unknown_farm_placeholder oneFarmDB).2 bananaProduct
    (by decide) (by decide)

/-! ## ProductDetail lookup -/

theorem find?_product_unique :
    ∀ (l : List ProductRow) (pid : String) (p : ProductRow),
      (l.map (fun q => q.id)).Nodup → p ∈ l → p.id = pid →
      p.is_active = some true →
      l.find? (fun q => q.id == pid && q.is_active == some true) = some p := by
  intro l
  induction l with
  | nil => intro pid p _ hp; cases hp
  | cons q t ih =>
    intro pid p hnd hp hpid hact
    rw [List.map_cons, List.nodup_cons] at hnd
    rcases List.mem_cons.mp hp with rfl | hpt
    · rw [List.find?_cons_of_pos _ (by simp [hpid, hact])]
    · have hqid : q.id ≠ pid := by
        intro he
        exact hnd.1 (by
          rw [he, ← hpid]
          exact List.mem_map_of_mem _ hpt)
      rw [List.find?_cons_of_neg _ (by simp [hqid])]
      exact ih pid p hnd.2 hpt hpid hact

theorem find?_farm_unique :
    ∀ (l : List FarmProfileRow) (fid : String) (fp : FarmProfileRow),
      (l.map (fun f => f.id)).Nodup → fp ∈ l → fp.id = fid →
      l.find? (fun f => f.id == fid) = some fp := by
  intro l
  induction l with
  | nil => intro fid fp _ hfp; cases hfp
  | cons g t ih =>
    intro fid fp hnd hfp hfid
    rw [List.map_cons, List.nodup_cons] at hnd
    rcases List.mem_cons.mp hfp with rfl | hft
    · rw [List.find?_cons_of_pos _ (by simp [hfid])]
    · have hgid : g.id ≠ fid := by
        intro he
        exact hnd.1 (by
          rw [he, ← hfid]
          exact List.mem_map_of_mem _ hft)
      rw [List.find?_cons_of_neg _ (by simp [hgid])]
      exact ih fid fp hnd.2 hft hfid

/-- C3: `ProductDetail.loadProduct` surfaces "Product not found" (and
loads nothing) whenever no active product carries the requested id —
in particular when the product exists but is inactive — and otherwise
returns the single active product with that id joined with the farm
profile whose `id` equals its `farm_id` (or a null farm when that
profile is absent). -/
theorem getById_found_or_not_found (db : DB) (pid : String)
    (hprod : (db.products.map (fun p => p.id)).Nodup)
    (hfarm : (db.farm_profiles.map (fun f => f.id)).Nodup) :
    ((∀ p ∈ db.products, p.id = pid → p.is_active ≠ some true) →
      loadProduct db pid = .notFound "Product not found") ∧
    (∀ p ∈ db.products, p.id = pid → p.is_active = some true →
      ((∀ fp ∈ db.farm_profiles, fp.id ≠ p.farm_id) →
        loadProduct db pid = .found p none) ∧
      (∀ fp ∈ db.farm_profiles, fp.id = p.farm_id →
        loadProduct db pid = .found p (some (DetailFarm.ofRow fp)))) := by
  constructor
  · intro h
    unfold loadProduct
    have hn : db.products.find?
        (fun q => q.id == pid && q.is_active == some true) = none := by
      rw [List.find?_eq_none]
      intro q hq
      by_cases hid : q.id = pid
      · simpa [hid] using h q hq hid
      · simp [hid]
    rw [hn]
  · intro p hp hpid hact
    have hfind := find?_product_unique db.products pid p hprod hp hpid hact
    constructor
    · intro hnone
      have hn : db.farm_profiles.find? (fun f => f.id == p.farm_id) = none := by
        rw [List.find?_eq_none]
        intro f2 hf2
        simp [hnone f2 hf2]
      simp only [loadProduct, hfind, hn, Option.map_none']
    · intro fp hfp hfpid
      simp only [loadProduct, hfind,
        find?_farm_unique db.farm_profiles p.farm_id fp hfarm hfp hfpid,
        Option.map_some']

/-- C3 witness: the concrete store's product is found with its farm. -/
theorem getById_found_or_not_found_witness :
    loadProduct oneFarmDB "p-1" =
      .found bananaProduct (some (DetailFarm.ofRow greenFarm)) :=
  ((getById_found_or_not_found oneFarmDB "p-1" (by decide) (by decide)).2
    bananaProduct (by decide) rfl rfl).2 greenFarm (by decide) rfl

/-! ## AddProduct validation -/

/-- C4: `AddProduct.handleSubmit` inserts nothing and surfaces an error
whenever one of its validations fails (blank name, price not a positive
number, quantity not a positive integer, or no harvest date); an insert
happens only when every validation passes and a farm id is loaded, and
the inserted row belongs to that farm. -/
theorem addProduct_validation_gate (farmId : Option String)
    (f : AddProductForm) :
    (validAdd f = false → ∃ msg, handleSubmit farmId f = .error msg) ∧
    (∀ row, handleSubmit farmId f = .insert row →
      validAdd f = true ∧ farmId = some row.farm_id) := by
  constructor
  · intro hv
    cases farmId with
    | none => exact ⟨"No farm profile found", rfl⟩
    | some fid =>
      by_cases h1 : jsTrim f.name = ""
      · exact ⟨"Product name is required", by simp [handleSubmit, h1]⟩
      · cases hp : f.price_per_unit with
        | none =>
          exact ⟨"Price must be greater than 0", by simp [handleSubmit, h1, hp]⟩
        | some price =>
          by_cases h2 : price ≤ 0
          · exact ⟨"Price must be greater than 0",
              by simp [handleSubmit, h1, hp, h2]⟩
          · cases hq : f.available_quantity with
            | none =>
              exact ⟨"Quantity must be greater than 0",
                by simp [handleSubmit, h1, hp, h2, hq]⟩
            | some qty =>
              by_cases h3 : qty ≤ 0
              · exact ⟨"Quantity must be greater than 0",
                  by simp [handleSubmit, h1, hp, h2, hq, h3]⟩
              · by_cases h4 : f.harvest_date = ""
                · exact ⟨"Harvest date is required",
                    by simp [handleSubmit, h1, hp, h2, hq, h3, h4]⟩
                · exfalso
                  rw [show validAdd f = true by
                    simp [validAdd, h1, priceOk, hp, qtyOk, hq, h4,
                      not_le.mp h2, not_le.mp h3]] at hv
                  cases hv
  · intro row h
    cases hf : farmId with
    | none => rw [hf] at h; cases h
    | some fid =>
      rw [hf] at h
      by_cases h1 : jsTrim f.name = ""
      · simp [handleSubmit, h1] at h
      · cases hp : f.price_per_unit with
        | none => simp [handleSubmit, h1, hp] at h
        | some price =>
          by_cases h2 : price ≤ 0
          · simp [handleSubmit, h1, hp, h2] at h
          · cases hq : f.available_quantity with
            | none => simp [handleSubmit, h1, hp, h2, hq] at h
            | some qty =>
              by_cases h3 : qty ≤ 0
              · simp [handleSubmit, h1, hp, h2, hq, h3] at h
              · by_cases h4 : f.harvest_date = ""
                · simp [handleSubmit, h1, hp, h2, hq, h3, h4] at h
                · constructor
                  · simp [validAdd, h1, priceOk, hp, qtyOk, hq, h4,
                      not_le.mp h2, not_le.mp h3]
                  · simp [handleSubmit, h1, hp, h2, hq, h3, h4] at h
                    subst h
                    rfl

/-- A form whose name is only spaces; used to exercise the validation
gate. -/
def blankNameForm : AddProductForm :=
  { name := "   ", description := "", product_type := .fruit
    price_per_unit := some 10, available_quantity := some 2, unit := "kg"
    harvest_date := "2025-01-10", expiry_date := "", image_url := "" }

/-- C4 witness: the blank-name form is rejected with an error and no
insert. -/
theorem addProduct_validation_gate_witness :
    ∃ msg, handleSubmit (some "farm-1") blankNameForm = .error msg :=
  (addProduct_validation_gate (some "farm-1") blankNameForm).1 (by decide)

/-- A fully valid form except that its expiry date precedes its harvest
date. -/
def earlyExpiryForm : AddProductForm :=
  { name := "Gros Michel", description := "", product_type := .fruit
    price_per_unit := some 50, available_quantity := some 5, unit := "kg"
    harvest_date := "2025-01-10", expiry_date := "2025-01-05"
    image_url := "" }

/-- C5: counterexample — `AddProduct.handleSubmit` contains no
expiry-versus-harvest check: on a form whose expiry date is strictly
earlier than its harvest date (and which passes the other validations)
it does not fail but inserts the row, early expiry included. -/
theorem addProduct_accepts_early_expiry_cex :
    dateLt earlyExpiryForm.expiry_date earlyExpiryForm.harvest_date = true ∧
    handleSubmit (some "farm-1") earlyExpiryForm =
      .insert
        { farm_id := "farm-1", name := "Gros Michel", description := none
          product_type := .fruit, price_per_unit := 50
          available_quantity := 5, unit := "kg"
          harvest_date := "2025-01-10", expiry_date := some "2025-01-05"
          image_url := none, is_active := true } := by
  exact ⟨by decide, by decide⟩

/-- C5 (amended): product creation performs no expiry-vs-harvest
validation — whenever an expiry date is present and strictly earlier
than the harvest date but the four implemented validations pass, the
insert proceeds and carries that early expiry date. -/
theorem addProduct_no_expiry_validation (fid : String) (f : AddProductForm)
    (h1 : jsTrim f.name ≠ "") (h2 : priceOk f.price_per_unit = true)
    (h3 : qtyOk f.available_quantity = true) (h4 : f.harvest_date ≠ "")
    (h5 : f.expiry_date ≠ "")
    (_h6 : dateLt f.expiry_date f.harvest_date = true) :
    ∃ row, handleSubmit (some fid) f = .insert row ∧
      row.expiry_date = some f.expiry_date ∧ row.farm_id = fid := by
  cases hp : f.price_per_unit with
  | none => rw [hp] at h2; cases h2
  | some price =>
    cases hq : f.available_quantity with
    | none => rw [hq] at h3; cases h3
    | some qty =>
      rw [hp] at h2
      rw [hq] at h3
      have hpp : ¬ price ≤ 0 := by
        simp only [priceOk, decide_eq_true_eq] at h2
        exact not_le.mpr h2
      have hqq : ¬ qty ≤ 0 := by
        simp only [qtyOk, decide_eq_true_eq] at h3
        exact not_le.mpr h3
      refine ⟨{ farm_id := fid, name := jsTrim f.name
                description := strOrNone (jsTrim f.description)
                product_type := f.product_type, price_per_unit := price
                available_quantity := qty, unit := f.unit
                harvest_date := f.harvest_date
                expiry_date := strOrNone f.expiry_date
                image_url := strOrNone (jsTrim f.image_url)
                is_active := true }, ?_, ?_, rfl⟩
      · simp [handleSubmit, h1, hp, hpp, hq, hqq, h4]
      · simp [strOrNone, h5]

/-- C5 witness for the amended statement, at the early-expiry form. -/
theorem addProduct_no_expiry_validation_witness :
    ∃ row, handleSubmit (some "farm-1") earlyExpiryForm = .insert row ∧
      row.expiry_date = some earlyExpiryForm.expiry_date ∧
      row.farm_id = "farm-1" :=
  addProduct_no_expiry_validation "farm-1" earlyExpiryForm (by decide)
    (by decide) (by decide) (by decide) (by decide) (by decide)

/-! ## UpdateProfile frame -/

/-- Forgets the three editable farm fields, for frame statements. -/
def eraseEditable (fp : FarmProfileRow) : FarmProfileRow :=
  { fp with farm_name := "", farm_location := "", farm_description := none }

/-- C7: `UpdateProfile.saveFarmProfile` rejects a blank farm name or
location without writing anything, and a successful save changes only
the editable fields `farm_name`, `farm_location`, `farm_description`:
per row, every other field — in particular the derived `rating`,
`total_reviews` and `total_sales` — is unchanged, and rows with a
different id are untouched. -/
theorem updateProfile_editable_fields_only (farms : List FarmProfileRow)
    (farmProfileId : String) (f : FarmForm) :
    (jsTrim f.farm_name = "" →
      saveFarmProfile farms farmProfileId f = .error "Farm name is required") ∧
    (jsTrim f.farm_name ≠ "" → jsTrim f.farm_location = "" →
      saveFarmProfile farms farmProfileId f =
        .error "Farm location is required") ∧
    (∀ farms2, saveFarmProfile farms farmProfileId f = .saved farms2 →
      farms2.map eraseEditable = farms.map eraseEditable ∧
      farms2.map (fun fp => fp.rating) = farms.map (fun fp => fp.rating) ∧
      farms2.map (fun fp => fp.total_reviews) =
        farms.map (fun fp => fp.total_reviews) ∧
      farms2.map (fun fp => fp.total_sales) =
        farms.map (fun fp => fp.total_sales) ∧
      ∀ fp ∈ farms, fp.id ≠ farmProfileId → fp ∈ farms2) := by
  refine ⟨?_, ?_, ?_⟩
  · intro h
    simp [saveFarmProfile, h]
  · intro h1 h2
    simp [saveFarmProfile, h1, h2]
  · intro farms2 h
    by_cases h1 : jsTrim f.farm_name = ""
    · simp [saveFarmProfile, h1] at h
    · by_cases h2 : jsTrim f.farm_location = ""
      · simp [saveFarmProfile, h1, h2] at h
      · simp only [saveFarmProfile, if_neg h1, if_neg h2,
          SaveFarmResult.saved.injEq] at h
        subst h
        refine ⟨?_, ?_, ?_, ?_, ?_⟩
        · rw [List.map_map]
          apply List.map_congr_left
          intro fp _
          by_cases hid : fp.id = farmProfileId <;> simp [eraseEditable, hid]
        · rw [List.map_map]
          apply List.map_congr_left
          intro fp _
          by_cases hid : fp.id = farmProfileId <;> simp [hid]
        · rw [List.map_map]
          apply List.map_congr_left
          intro fp _
          by_cases hid : fp.id = farmProfileId <;> simp [hid]
        · rw [List.map_map]
          apply List.map_congr_left
          intro fp _
          by_cases hid : fp.id = farmProfileId <;> simp [hid]
        · intro fp hfp hne
          exact List.mem_map.mpr ⟨fp, hfp, by simp [hne]⟩

/-- The farm form used to exercise the profile update. -/
def greenFarmForm : FarmForm :=
  { farm_name := " Green Valley Farm ", farm_location := "Chiang Mai"
    farm_description := "" }

/-- The row `saveFarmProfile` produces from `greenFarm` under
`greenFarmForm`. -/
def greenFarmSaved : FarmProfileRow :=
  { greenFarm with farm_name := "Green Valley Farm"
                   farm_location := "Chiang Mai", farm_description := none }

/-- C7 witness: a concrete successful save leaves the non-editable
fields of the one stored farm row unchanged. -/
theorem updateProfile_editable_fields_only_witness :
    [greenFarmSaved].map eraseEditable = [greenFarm].map eraseEditable :=
  ((updateProfile_editable_fields_only [greenFarm] "farm-1"
    greenFarmForm).2.2 [greenFarmSaved] (by decide)).1

/-! ## Market browse filter -/

/-- C9: the browse filter keeps a loaded product exactly when the
lowercased search string occurs in the lowercased product name or farm
name and the type filter is `"all"` or equals the product's type key;
with an empty search string the search condition is vacuous and the
type filter alone decides. -/
theorem browse_filter_spec (products : List MarketProduct)
    (search typeFilter : String) (p : MarketProduct) :
    (p ∈ filteredProducts products search typeFilter ↔
      p ∈ products ∧
      (strIncludes (jsToLower p.product.name) (jsToLower search) = true ∨
        strIncludes (jsToLower p.farm_profiles.farm_name)
          (jsToLower search) = true) ∧
      (typeFilter = "all" ∨ p.product.product_type.toKey = typeFilter)) ∧
    (search = "" →
      (p ∈ filteredProducts products search typeFilter ↔
        p ∈ products ∧
        (typeFilter = "all" ∨ p.product.product_type.toKey = typeFilter))) := by
  have hiff : p ∈ filteredProducts products search typeFilter ↔
      p ∈ products ∧
      (strIncludes (jsToLower p.product.name) (jsToLower search) = true ∨
        strIncludes (jsToLower p.farm_profiles.farm_name)
          (jsToLower search) = true) ∧
      (typeFilter = "all" ∨ p.product.product_type.toKey = typeFilter) := by
    unfold filteredProducts
    rw [List.mem_filter]
    simp only [Bool.and_eq_true, Bool.or_eq_true, beq_iff_eq]
  refine ⟨hiff, ?_⟩
  intro hs
  subst hs
  rw [hiff]
  have h0 : jsToLower "" = "" := rfl
  simp [h0, strIncludes_empty]

/-- C9 witness: with an empty search and the type filter unset, a
loaded product passes the filter. -/
theorem browse_filter_spec_witness :
    ({ product := bananaProduct, farm_profiles := unknownFarm } :
      MarketProduct) ∈
      filteredProducts
        [{ product := bananaProduct, farm_profiles := unknownFarm }] "" "all" :=
  ((browse_filter_spec
      [{ product := bananaProduct, farm_profiles := unknownFarm }] "" "all"
      { product := bananaProduct, farm_profiles := unknownFarm }).2 rfl).mpr
    ⟨List.mem_singleton.mpr rfl, Or.inl rfl⟩
